import Mathlib

/-!
Verification of the snippets subsystem of `supabase-studio-go`
(`internal/api/snippets.go`) against its natural-language specification.

Shallow embedding conventions:
* Go `int32` values are `Int` with explicit two's-complement wraparound
  (`wrap32`), Go `uint32` values are `Nat` with explicit `% 2 ^ 32` / `% 2 ^ 31`
  where the code masks.
* Go strings are Lean `String`; iterating a Go string with `range` yields
  runes (Unicode code points), which matches iterating `String.data` and
  taking `Char.toNat`.
* The filesystem is an explicit state (`fsState`); `os.Remove` /
  `os.WriteFile` become pure state transformers.  `uuid.NewString()` (the
  only source of randomness) is threaded as an explicit `fresh` argument.
-/

set_option maxRecDepth 40000

namespace Snippets

/-- Two's-complement wraparound into the signed 32-bit range
`[-2 ^ 31, 2 ^ 31)`; Go `int32` arithmetic applies this after every
operation. -/
def wrap32 (x : Int) : Int :=
  (x + 2147483648) % 4294967296 - 2147483648

/-- One step of the rolling hash as Go executes it:
`hash = (hash << 5) - hash + int32(r)`, every intermediate `int32`
operation wrapping. -/
def simpleHashStep (hash : Int) (r : Nat) : Int :=
  wrap32 (wrap32 (wrap32 (hash * 32) - hash) + (r : Int))

/-- Embeds `simpleHash` from `snippets.go`: rolling hash over the runes,
then Go's `if hash < 0 { hash = -hash }` (negation itself wraps, so
`-math.MinInt32` stays `math.MinInt32`). -/
def simpleHash (input : String) : Int :=
  let h := input.data.foldl (fun hash r => simpleHashStep hash r.toNat) 0
  if h < 0 then wrap32 (-h) else h

/-- Go's `uint32(h)` conversion of an `int32` value: the two's-complement
bit pattern read as an unsigned number. -/
def toUInt32bits (x : Int) : Nat :=
  (x % 4294967296).toNat

/-- The LCG byte stream as Go executes it: `seed` is a `uint32`, the update
`seed*1103515245 + 12345` wraps mod `2 ^ 32` and is then masked with
`0x7fffffff` (`% 2 ^ 31`); `byte(seed >> 16)` truncates to 8 bits. -/
def lcgBytesGo : Nat → Nat → List Nat
  | _, 0 => []
  | seed, n + 1 =>
    let s := (seed * 1103515245 + 12345) % 4294967296 % 2147483648
    (s / 65536 % 256) :: lcgBytesGo s n

/-- Sets the UUID version/variant bits exactly as `snippets.go` does:
`bytes[6] = (bytes[6] & 0x0f) | 0x40` and `bytes[8] = (bytes[8] & 0x3f) | 0x80`
(the masked bits are disjoint from the or-ed bits, so this is
`% 16 + 64` resp. `% 64 + 128`). -/
def patchUUIDBytes (bs : List Nat) : List Nat :=
  (bs.set 6 (bs.getD 6 0 % 16 + 64)).set 8 (bs.getD 8 0 % 64 + 128)

/-- Lower-case hexadecimal digit. -/
def hexDigit (n : Nat) : Char :=
  if n < 10 then Char.ofNat (48 + n) else Char.ofNat (87 + n)

/-- Two-digit lower-case hex rendering of one byte. -/
def byteHex (b : Nat) : List Char :=
  [hexDigit (b / 16 % 16), hexDigit (b % 16)]

/-- Renders 16 bytes in the standard dashed 8-4-4-4-12 UUID format,
as `uuid.FromBytes(...).String()` does. -/
def uuidFormat (bs : List Nat) : String :=
  ⟨(bs.take 4).flatMap byteHex ++ '-' ::
    ((bs.drop 4).take 2).flatMap byteHex ++ '-' ::
    ((bs.drop 6).take 2).flatMap byteHex ++ '-' ::
    ((bs.drop 8).take 2).flatMap byteHex ++ '-' ::
    (bs.drop 10).flatMap byteHex⟩

/-- The deterministic core of `deterministicUUID`: hashes the joined
input, runs the LCG 16 times, patches version/variant bits and formats. -/
def uuidFromInput (input : String) : String :=
  uuidFormat (patchUUIDBytes (lcgBytesGo (toUInt32bits (simpleHash input)) 16))

/-- Go's `strings.Join(parts, "_")`. -/
def joinParts : List String → String
  | [] => ""
  | [s] => s
  | s :: rest => s ++ "_" ++ joinParts rest

/-- Embeds `deterministicUUID` from `snippets.go`.  `fresh` stands for the
value `uuid.NewString()` would have produced; it is consulted only on the
degenerate branch where the cleaned, joined input is empty. -/
def deterministicUUID (fresh : String) (inputs : List String) : String :=
  let cleaned := inputs.filter (fun s => s ≠ "")
  let input := joinParts cleaned
  if input = "" then fresh else uuidFromInput input

/-- Modelled from the spec (§4.1 step 2): signed 32-bit rolling hash
`h = h*31 + codepoint(c)` with wraparound, then absolute value. -/
def specHash (input : String) : Nat :=
  (input.data.foldl (fun h c => wrap32 (h * 31 + (c.toNat : Int))) 0).natAbs

/-- Modelled from the spec (§4.1 step 3): LCG
`seed = (seed*1103515245 + 12345) mod 2 ^ 31`, each iteration contributing
`(seed >> 16) & 0xFF`. -/
def specLcgBytes : Nat → Nat → List Nat
  | _, 0 => []
  | seed, n + 1 =>
    let s := (seed * 1103515245 + 12345) % 2147483648
    (s / 65536 % 256) :: specLcgBytes s n

/-- Modelled from the spec (§4.1): the whole identity algorithm for
non-degenerate input — steps 2–5; `none` on the degenerate empty-join
input, where the spec prescribes a fresh random UUID instead. -/
def specDeterministicUUID (inputs : List String) : Option String :=
  let input := joinParts (inputs.filter (fun s => s ≠ ""))
  if input = "" then none
  else some (uuidFormat (patchUUIDBytes (specLcgBytes (specHash input) 16)))

/-- The typed error values of `snippets.go`. -/
inductive goErr
  | snippetNotFound
  | snippetAlreadyExists
  | snippetExistsInTargetFolder
  | folderNotFound
  | folderNameRequired
  | folderAlreadyExists
  | limitExceedsMax
deriving Repr, DecidableEq

/-- Embeds the `filesystemEntry` struct; `typ` stands for the Go field
`Type` (a Lean keyword), `CreatedAt` (a `time.Time`) is modelled as a
`Nat` tick count. -/
structure filesystemEntry where
  ID : String
  Name : String
  typ : String
  FolderID : Option String
  Content : String
  CreatedAt : Nat
deriving Repr, DecidableEq

/-- A regular file on disk: name within its directory, content, mtime. -/
structure fsFile where
  fname : String
  content : String
  mtime : Nat
deriving Repr, DecidableEq

/-- A top-level directory of the snippets root.  Deeper subdirectories are
skipped wholesale by the walker (`filepath.SkipDir`), so the model keeps
only the files. -/
structure fsDir where
  dname : String
  dmtime : Nat
  dfiles : List fsFile
deriving Repr, DecidableEq

/-- One entry of the root directory. -/
inductive rootItem
  | file (f : fsFile)
  | dir (d : fsDir)
deriving Repr, DecidableEq

/-- The snippets root directory.  `filepath.WalkDir` visits root entries in
lexical order and enters each directory right after visiting it; the model
keeps the items in that visit order as a plain list. -/
structure fsState where
  items : List rootItem
deriving Repr, DecidableEq

/-- Whether `l` starts with `p`. -/
def listStartsWith : List Char → List Char → Bool
  | _, [] => true
  | [], _ :: _ => false
  | a :: as, b :: bs => a == b && listStartsWith as bs

/-- Go's `strings.HasSuffix`. -/
def strEndsWith (s suffix : String) : Bool :=
  listStartsWith s.data.reverse suffix.data.reverse

/-- Whether the walker keeps a file: `snippets.go` skips `.DS_Store` and
anything not ending in `.sql`. -/
def isSqlName (fname : String) : Bool :=
  !(fname == ".DS_Store") && strEndsWith fname ".sql"

/-- Go's `strings.TrimSuffix`. -/
def trimSuffix (s suffix : String) : String :=
  if strEndsWith s suffix then ⟨s.data.take (s.data.length - suffix.data.length)⟩ else s

/-- The entry the walker produces for a root-level file (`len(parts) == 1`
branch of `getFilesystemEntries`), `none` for ignored files. -/
def rootFileEntry (f : fsFile) : Option filesystemEntry :=
  if isSqlName f.fname then
    let name := trimSuffix f.fname ".sql"
    some { ID := deterministicUUID "" [name ++ ".sql"], Name := name, typ := "file",
           FolderID := none, Content := f.content, CreatedAt := f.mtime }
  else none

/-- The entry the walker produces for a file one level inside a folder
whose id is `folderUUID` (`len(parts) > 1` branch). -/
def dirFileEntry (folderUUID : String) (f : fsFile) : Option filesystemEntry :=
  if isSqlName f.fname then
    let name := trimSuffix f.fname ".sql"
    some { ID := deterministicUUID "" [folderUUID, name ++ ".sql"], Name := name, typ := "file",
           FolderID := some folderUUID, Content := f.content, CreatedAt := f.mtime }
  else none

/-- The entries the walker produces for one root item: a directory yields
its folder entry followed by its kept files; a root file yields at most
one file entry. -/
def scanItem : rootItem → List filesystemEntry
  | .file f => (rootFileEntry f).toList
  | .dir d =>
    let fid := deterministicUUID "" [d.dname]
    { ID := fid, Name := d.dname, typ := "folder", FolderID := none,
      Content := "", CreatedAt := d.dmtime } :: d.dfiles.filterMap (dirFileEntry fid)

/-- Embeds `getFilesystemEntries`: the fresh scan every repository call
starts from. -/
def scanEntries (st : fsState) : List filesystemEntry :=
  st.items.flatMap scanItem

/-- Characters of `l` with trailing `/` separators removed
(the first loop of Go's `filepath.Base`). -/
def dropTrailingSeps (l : List Char) : List Char :=
  (l.reverse.dropWhile (fun c => c == '/')).reverse

/-- The characters after the last `/` separator. -/
def afterLastSep (l : List Char) : List Char :=
  (l.reverse.takeWhile (fun c => !(c == '/'))).reverse

/-- Embeds Go's `filepath.Base` for unix separators. -/
def filepathBase (path : String) : String :=
  if path == "" then "."
  else
    let trimmed := dropTrailingSeps path.data
    if trimmed.isEmpty then "/"
    else ⟨afterLastSep trimmed⟩

/-- Embeds `sanitizeName`: empty result for any name that is not its own
base-name component or contains an embedded null byte. -/
def sanitizeName (name : String) : String :=
  let base := filepathBase name
  if !(base == name) || name.data.contains (Char.ofNat 0) then "" else base

/-- Embeds `matchesFolder`: Go compares the `*string` pointers for
nil-ness and otherwise the pointed-to values. -/
def matchesFolder (fileFolder targetFolder : Option String) : Bool :=
  match fileFolder, targetFolder with
  | none, none => true
  | some a, some b => a == b
  | _, _ => false

/-- Go's `strings.ToLower` lower-cases each rune; modelled by mapping
`Char.toLower` over the characters (they agree on ASCII input). -/
def strToLower (s : String) : String :=
  ⟨s.data.map Char.toLower⟩

/-- Embeds Go's `strings.Contains hay needle`. -/
def goContains (hay needle : String) : Bool :=
  (List.range (hay.data.length + 1)).any (fun i => listStartsWith (hay.data.drop i) needle.data)

/-- Lexicographic order on character lists; on valid UTF-8 this agrees
with Go's byte-wise `<` on strings, since UTF-8 preserves code-point
order. -/
def listLexLt : List Char → List Char → Bool
  | [], [] => false
  | [], _ :: _ => true
  | _ :: _, [] => false
  | a :: as, b :: bs => decide (a < b) || (a == b && listLexLt as bs)

/-- Go's `<` on strings. -/
def strLt (s t : String) : Bool :=
  listLexLt s.data t.data

/-- The comparison `getSnippets` hands to `sort.SliceStable`: lower-cased
name if `sortField == "name"`, else modification time. -/
def entryLess (sortField : String) (a b : filesystemEntry) : Bool :=
  if sortField == "name" then strLt (strToLower a.Name) (strToLower b.Name)
  else decide (a.CreatedAt < b.CreatedAt)

/-- Stable insertion of `x` after every element not strictly greater than
it; `x` arrived later than the elements already in the list. -/
def insertStable {α : Type} (less : α → α → Bool) (x : α) : List α → List α
  | [] => [x]
  | y :: ys => if less y x then y :: insertStable less x ys else x :: y :: ys

/-- Stable sort (models Go's `sort.SliceStable`). -/
def stableSort {α : Type} (less : α → α → Bool) : List α → List α
  | [] => []
  | x :: xs => insertStable less x (stableSort less xs)

/-- The filter stage of `getSnippets`: non-empty search term filters by
case-insensitive substring on name (ignoring the folder filter), empty
search term filters by exact folder membership. -/
def searchFilter (files : List filesystemEntry) (searchTerm : String)
    (folderID : Option String) : List filesystemEntry :=
  if searchTerm ≠ "" then
    files.filter (fun f => goContains (strToLower f.Name) (strToLower searchTerm))
  else
    files.filter (fun f => matchesFolder f.FolderID folderID)

/-- The sort stage of `getSnippets`: stable sort, then in-place reversal
when descending order is requested. -/
def sortStage (sortField sortOrder : String) (l : List filesystemEntry) :
    List filesystemEntry :=
  let s := stableSort (entryLess sortField) l
  if sortOrder == "desc" then s.reverse else s

/-- The start index the cursor loop of `getSnippets` computes: one past
the first entry whose id equals the (non-empty) cursor, else 0. -/
def cursorStart (cursor : String) (l : List filesystemEntry) : Nat :=
  if cursor == "" then 0
  else
    match l.findIdx? (fun e => e.ID == cursor) with
    | some i => i + 1
    | none => 0

/-- The cursor stage of `getSnippets`: `filtered = filtered[start:]`. -/
def cursorStage (cursor : String) (l : List filesystemEntry) : List filesystemEntry :=
  l.drop (cursorStart cursor l)

/-- The limit stage of `getSnippets`: default 100 when `limit ≤ 0`, error
above 1000, and otherwise page truncation with
`nextCursor = filtered[limit-1].ID` when more items remain. -/
def limitStage (limit : Int) (l : List filesystemEntry) :
    Except goErr (String × List filesystemEntry) :=
  let lim := if limit ≤ 0 then 100 else limit
  if lim > 1000 then .error .limitExceedsMax
  else
    let n := lim.toNat
    if l.length > n then .ok (((l[n - 1]?).map (fun e => e.ID)).getD "", l.take n)
    else .ok ("", l)

/-- Embeds `getSnippets` from the scanned entry list on: keep file
entries, filter, sort, slice at the cursor, apply the limit.  The returned
items are the `filesystemEntry` values the code maps 1:1 through
`buildSnippet` (whose only extra data, a random content id and formatted
timestamps, no claim touches). -/
def getSnippets (entries : List filesystemEntry) (searchTerm : String) (limit : Int)
    (cursor sortField sortOrder : String) (folderID : Option String) :
    Except goErr (String × List filesystemEntry) :=
  let files := entries.filter (fun e => e.typ == "file")
  limitStage limit (cursorStage cursor (sortStage sortField sortOrder
    (searchFilter files searchTerm folderID)))

/-- Embeds the `folder` struct. -/
structure folder where
  ID : String
  Name : String
  OwnerID : Nat
  ParentID : Option String
  ProjectID : Nat
deriving Repr, DecidableEq

/-- Embeds `getFolders` from the scanned entry list on: note the loop
condition also requires the *parameter* `folderID == nil`. -/
def getFolders (entries : List filesystemEntry) (folderID : Option String) : List folder :=
  (entries.filter (fun e => e.typ == "folder" && e.FolderID.isNone && folderID.isNone)).map
    (fun e => { ID := e.ID, Name := e.Name, OwnerID := 1, ParentID := none, ProjectID := 1 })

/-- Overwrites (or creates) the root-level file named `nf.fname`
(models `os.WriteFile root/<name>`). -/
def setRootFile : List rootItem → fsFile → List rootItem
  | [], nf => [.file nf]
  | .file f :: rest, nf =>
    if f.fname == nf.fname then .file nf :: rest else .file f :: setRootFile rest nf
  | it :: rest, nf => it :: setRootFile rest nf

/-- Overwrites (or creates) the file named `nf.fname` in a directory's
file list. -/
def setDirFiles : List fsFile → fsFile → List fsFile
  | [], nf => [nf]
  | f :: rest, nf => if f.fname == nf.fname then nf :: rest else f :: setDirFiles rest nf

/-- Overwrites (or creates) a file inside the first directory named `dn`
(models `os.WriteFile root/<dn>/<name>`; the caller has already resolved
`dn` from an existing folder entry). -/
def setInDir : List rootItem → String → fsFile → List rootItem
  | [], _, _ => []
  | .dir d :: rest, dn, nf =>
    if d.dname == dn then .dir { d with dfiles := setDirFiles d.dfiles nf } :: rest
    else .dir d :: setInDir rest dn nf
  | it :: rest, dn, nf => it :: setInDir rest dn nf

/-- One file write at root (`dir = none`) or inside a folder. -/
def writeFileAt (st : fsState) (dir : Option String) (nf : fsFile) : fsState :=
  match dir with
  | none => ⟨setRootFile st.items nf⟩
  | some dn => ⟨setInDir st.items dn nf⟩

/-- Removes the root-level file named `fname`, a no-op when absent. -/
def removeRootFile : List rootItem → String → List rootItem
  | [], _ => []
  | .file f :: rest, fname =>
    if f.fname == fname then rest else .file f :: removeRootFile rest fname
  | it :: rest, fname => it :: removeRootFile rest fname

/-- Removes the file named `fname` from a directory's file list, a no-op
when absent. -/
def removeDirFiles : List fsFile → String → List fsFile
  | [], _ => []
  | f :: rest, fname => if f.fname == fname then rest else f :: removeDirFiles rest fname

/-- Removes a file inside the first directory named `dn`, a no-op when the
directory or file is absent. -/
def removeInDir : List rootItem → String → String → List rootItem
  | [], _, _ => []
  | .dir d :: rest, dn, fname =>
    if d.dname == dn then .dir { d with dfiles := removeDirFiles d.dfiles fname } :: rest
    else .dir d :: removeInDir rest dn fname
  | it :: rest, dn, fname => it :: removeInDir rest dn fname

/-- Models `os.Remove(filepath.Join(root, dirs..., fname))` followed by
the `os.ErrNotExist`-is-success leniency of `deleteSnippet`: a path that
does not exist (absent file, absent directory, or a ≥ 2-deep path — the
tree has depth ≤ 1) removes nothing and still succeeds. -/
def goRemove (st : fsState) (dirs : List String) (fname : String) : fsState :=
  match dirs with
  | [] => ⟨removeRootFile st.items fname⟩
  | [dn] => ⟨removeInDir st.items dn fname⟩
  | _ => st

/-- Embeds `deleteSnippet`: resolve the id against a fresh scan
(`snippetNotFound` when absent), rebuild the path from every folder entry
matching the file's `FolderID`, remove, tolerating an already-missing
file. -/
def deleteSnippet (st : fsState) (id : String) : fsState × Option goErr :=
  let entries := scanEntries st
  match entries.find? (fun e => e.ID == id && e.typ == "file") with
  | none => (st, some .snippetNotFound)
  | some target =>
    let dirs := (entries.filter (fun e =>
      match target.FolderID with
      | some fid => e.ID == fid && e.typ == "folder"
      | none => false)).map (fun e => e.Name)
    (goRemove st dirs (target.Name ++ ".sql"), none)

instance {ε α : Type} [DecidableEq ε] [DecidableEq α] : DecidableEq (Except ε α) := fun x y =>
  match x, y with
  | .ok a, .ok b =>
    if h : a = b then isTrue (by rw [h]) else isFalse (by intro hc; cases hc; exact h rfl)
  | .error a, .error b =>
    if h : a = b then isTrue (by rw [h]) else isFalse (by intro hc; cases hc; exact h rfl)
  | .ok _, .error _ => isFalse (by intro hc; cases hc)
  | .error _, .ok _ => isFalse (by intro hc; cases hc)

/-- The fields of the `snippet` argument that `saveSnippet` reads. -/
structure snippetIn where
  ID : String
  Name : String
  FolderID : Option String
  SQL : String
deriving Repr, DecidableEq

/-- Embeds `saveSnippet` (the create operation): identity-collision check,
folder-existence check, then `os.WriteFile root[/folder]/<sanitized>.sql`.
The returned `snippet` payload (`buildSnippet` of the fresh stat data) is
omitted; only success is reported. -/
def saveSnippet (st : fsState) (now : Nat) (ns : snippetIn) : fsState × Except goErr Unit :=
  let entries := scanEntries st
  if entries.any (fun e => e.ID == ns.ID && e.typ == "file") then
    (st, .error .snippetAlreadyExists)
  else
    match ns.FolderID with
    | some fid =>
      match entries.find? (fun e => e.ID == fid && e.typ == "folder") with
      | none => (st, .error .folderNotFound)
      | some fe =>
        (writeFileAt st (some fe.Name) ⟨sanitizeName ns.Name ++ ".sql", ns.SQL, now⟩, .ok ())
    | none =>
      (writeFileAt st none ⟨sanitizeName ns.Name ++ ".sql", ns.SQL, now⟩, .ok ())

/-- Embeds `updateSnippet`.  The `updates map[string]any` is modelled by
the three fields the code extracts: `upName` (`updates["name"]`, applied
when present and non-empty), `upFolder` (`updates["folder_id"]`, where
`some none` is an explicit JSON null), `upSQL` (`updates["content"]["sql"]`). -/
def updateSnippet (st : fsState) (now : Nat) (id : String) (upName : Option String)
    (upFolder : Option (Option String)) (upSQL : Option String) :
    fsState × Except goErr Unit :=
  let entries := scanEntries st
  match entries.find? (fun e => e.ID == id && e.typ == "file") with
  | none => (st, .error .snippetNotFound)
  | some found =>
    let name := match upName with
      | some n => if n ≠ "" then n else found.Name
      | none => found.Name
    let folderID := match upFolder with
      | some f => f
      | none => found.FolderID
    let newIDInputs := match folderID with
      | some fid => [fid, name ++ ".sql"]
      | none => [name ++ ".sql"]
    let newID := deterministicUUID "" newIDInputs
    if entries.any (fun e => e.ID == newID && e.typ == "file" && !(e.ID == found.ID)) then
      (st, .error .snippetExistsInTargetFolder)
    else
      let content := match upSQL with
        | some s => s
        | none => found.Content
      match deleteSnippet st found.ID with
      | (st1, none) => saveSnippet st1 now { ID := newID, Name := name,
                                             FolderID := folderID, SQL := content }
      | (st1, some e) => (st1, .error e)

/-- Embeds `createFolder`: sanitize (empty → `folderNameRequired`),
duplicate-name check against a fresh scan, then `os.MkdirAll`. -/
def createFolder (st : fsState) (now : Nat) (name0 : String) : fsState × Except goErr folder :=
  let name := sanitizeName name0
  if name == "" then (st, .error .folderNameRequired)
  else
    let entries := scanEntries st
    if entries.any (fun e => e.typ == "folder" && e.Name == name) then
      (st, .error .folderAlreadyExists)
    else
      (⟨st.items ++ [.dir ⟨name, now, []⟩]⟩,
       .ok { ID := deterministicUUID "" [name], Name := name,
             OwnerID := 1, ParentID := none, ProjectID := 1 })

/-! ### Concrete demonstration states -/

/-- A root directory holding the single snippet `a.sql`. -/
def oneSnippetState : fsState := ⟨[.file ⟨"a.sql", "select 1", 3⟩]⟩

/-- The identity of the root-level snippet `a`. -/
def oneSnippetID : String := deterministicUUID "" ["a.sql"]

/-- A root directory holding the single folder `F` with the snippet
`a.sql` inside. -/
def folderDemoState : fsState := ⟨[.dir ⟨"F", 5, [⟨"a.sql", "select 1", 6⟩]⟩]⟩

/-- One already-scanned top-level folder entry. -/
def folderDemoEntries : List filesystemEntry :=
  [{ ID := "fid1", Name := "F", typ := "folder", FolderID := none, Content := "", CreatedAt := 0 }]

/-- Five already-scanned root-level snippets with distinct names, listed
in scrambled scan order. -/
def fiveSnippets : List filesystemEntry :=
  [{ ID := "4", Name := "d", typ := "file", FolderID := none, Content := "s4", CreatedAt := 14 },
   { ID := "2", Name := "b", typ := "file", FolderID := none, Content := "s2", CreatedAt := 12 },
   { ID := "5", Name := "e", typ := "file", FolderID := none, Content := "s5", CreatedAt := 15 },
   { ID := "1", Name := "a", typ := "file", FolderID := none, Content := "s1", CreatedAt := 11 },
   { ID := "3", Name := "c", typ := "file", FolderID := none, Content := "s3", CreatedAt := 13 }]

/-- The item list of a page result, empty on error. -/
def pageOf (r : Except goErr (String × List filesystemEntry)) : List filesystemEntry :=
  match r with
  | .ok (_, p) => p
  | .error _ => []

/-- The sorted, filtered file-entry list `getSnippets` paginates over. -/
def sortedFiltered (entries : List filesystemEntry) (s sf so : String)
    (fid : Option String) : List filesystemEntry :=
  sortStage sf so (searchFilter (entries.filter (fun e => e.typ == "file")) s fid)

/-! ### Helper lemmas -/

theorem joinParts_ne_empty (l : List String) (hne : l ≠ []) (hs : ∀ s ∈ l, s ≠ "") :
    joinParts l ≠ "" := by
  match l, hne with
  | [s], _ =>
    exact hs s (by simp)
  | s :: t :: rest, _ =>
    intro hcontra
    have hdata : (s ++ "_" ++ joinParts (t :: rest)).data = [] := by
      rw [show joinParts (s :: t :: rest) = s ++ "_" ++ joinParts (t :: rest) from rfl] at hcontra
      rw [hcontra]
    rw [String.data_append, String.data_append] at hdata
    simp at hdata

theorem cleaned_ne_empty (p : List String) (h : ∃ s ∈ p, s ≠ "") :
    joinParts (p.filter (fun s => s ≠ "")) ≠ "" := by
  apply joinParts_ne_empty
  · obtain ⟨s, hmem, hne⟩ := h
    intro hnil
    have : s ∈ p.filter (fun s => s ≠ "") := by
      rw [List.mem_filter]
      exact ⟨hmem, by simpa using hne⟩
    rw [hnil] at this
    simp at this
  · intro s hmem
    have := List.of_mem_filter hmem
    simpa using this

/-- C1 (amended): the identity generator ignores its random input — hence
returns the same identifier on every call — whenever at least one part is
non-empty. -/
theorem deterministicUUID_deterministic (f1 f2 : String) (p : List String)
    (h : ∃ s ∈ p, s ≠ "") : deterministicUUID f1 p = deterministicUUID f2 p := by
  have hne := cleaned_ne_empty p h
  unfold deterministicUUID
  simp only [if_neg hne]

/-- Witness for `deterministicUUID_deterministic` at `p = ["a"]`. -/
theorem deterministicUUID_deterministic_witness :
    (∃ s ∈ ["a"], s ≠ "") ∧ deterministicUUID "x" ["a"] = deterministicUUID "y" ["a"] :=
  ⟨⟨"a", by simp⟩, deterministicUUID_deterministic "x" "y" ["a"] ⟨"a", by simp⟩⟩

/-- C1 (counterexample to the claim as stated): `[""]` is a non-empty
list of strings, yet two calls that draw different fresh random UUIDs
return different identifiers, because the cleaned joined input is empty
and the code falls through to `uuid.NewString()`. -/
theorem deterministicUUID_claim_counterexample :
    ([""] : List String) ≠ [] ∧
      deterministicUUID "119e8bc7-911c-4b26-bf8a-9b708a2a8b5e" [""] ≠
        deterministicUUID "c56687b1-4f0b-4430-8bc7-96ba3ba86c40" [""] := by
  constructor
  · simp
  · decide

theorem simpleHashStep_eq (h : Int) (r : Nat) : simpleHashStep h r = wrap32 (h * 31 + (r : Int)) := by
  unfold simpleHashStep wrap32
  omega

theorem hashFoldl_range (l : List Char) (h : Int) (h1 : -2147483648 ≤ h) (h2 : h < 2147483648) :
    -2147483648 ≤ l.foldl (fun (a : Int) (c : Char) => wrap32 (a * 31 + (c.toNat : Int))) h ∧
      l.foldl (fun (a : Int) (c : Char) => wrap32 (a * 31 + (c.toNat : Int))) h < 2147483648 := by
  induction l generalizing h with
  | nil => exact ⟨h1, h2⟩
  | cons c cs ih =>
    simp only [List.foldl_cons]
    apply ih
    · unfold wrap32; omega
    · unfold wrap32; omega

/-- Go's `uint32(hash)` after `if hash < 0 { hash = -hash }` equals the
mathematical absolute value of the wrapped hash — including at
`math.MinInt32`, where Go's negation is a no-op but the unsigned
reinterpretation still yields `2 ^ 31`. -/
theorem simpleHash_natAbs (s : String) : toUInt32bits (simpleHash s) = specHash s := by
  unfold simpleHash specHash
  have hfun : (fun (hash : Int) (r : Char) => simpleHashStep hash r.toNat)
      = fun (a : Int) (c : Char) => wrap32 (a * 31 + (c.toNat : Int)) := by
    funext a c
    exact simpleHashStep_eq a c.toNat
  rw [hfun]
  obtain ⟨h1, h2⟩ := hashFoldl_range s.data 0 (by norm_num) (by norm_num)
  set h := s.data.foldl (fun (a : Int) (c : Char) => wrap32 (a * 31 + (c.toNat : Int))) 0 with hh
  by_cases hneg : h < 0
  · rw [if_pos hneg]
    unfold wrap32 toUInt32bits
    omega
  · rw [if_neg hneg]
    unfold toUInt32bits
    omega

theorem lcgBytesGo_eq_spec (n seed : Nat) : lcgBytesGo seed n = specLcgBytes seed n := by
  induction n generalizing seed with
  | zero => rfl
  | succ n ih =>
    have hs : (seed * 1103515245 + 12345) % 4294967296 % 2147483648
        = (seed * 1103515245 + 12345) % 2147483648 :=
      Nat.mod_mod_of_dvd _ (by norm_num)
    simp only [lcgBytesGo, specLcgBytes, hs, ih]

theorem uuidFromInput_eq_spec (s : String) :
    uuidFromInput s = uuidFormat (patchUUIDBytes (specLcgBytes (specHash s) 16)) := by
  unfold uuidFromInput
  rw [lcgBytesGo_eq_spec, simpleHash_natAbs]

/-- C2: on every input list whose non-empty parts joined with `_` are
non-empty, `deterministicUUID` computes exactly the spec's algorithm —
signed 32-bit rolling hash `h = h*31 + codepoint(c)` with wraparound then
absolute value, LCG `seed = (seed*1103515245 + 12345) mod 2 ^ 31` iterated
16 times contributing bytes `(seed >> 16) & 0xFF`, version/variant bit
patching, dashed UUID formatting. -/
theorem deterministicUUID_refines_spec (fresh : String) (inputs : List String)
    (h : joinParts (inputs.filter (fun s => s ≠ "")) ≠ "") :
    specDeterministicUUID inputs = some (deterministicUUID fresh inputs) := by
  unfold specDeterministicUUID deterministicUUID
  simp only [if_neg h]
  rw [uuidFromInput_eq_spec]

/-- Witness for `deterministicUUID_refines_spec` at `inputs = ["a"]`. -/
theorem deterministicUUID_refines_spec_witness :
    joinParts ((["a"] : List String).filter (fun s => s ≠ "")) ≠ "" ∧
      specDeterministicUUID ["a"] = some (deterministicUUID "z" ["a"]) :=
  ⟨by decide, deterministicUUID_refines_spec "z" ["a"] (by decide)⟩

theorem limitStage_default (limit : Int) (L : List filesystemEntry) (h : limit ≤ 0) :
    limitStage limit L = limitStage 100 L := by
  simp only [limitStage, if_pos h]
  norm_num

theorem limitStage_exceeds (limit : Int) (L : List filesystemEntry) (h : limit > 1000) :
    limitStage limit L = .error .limitExceedsMax := by
  have h0 : ¬ limit ≤ 0 := by omega
  simp only [limitStage, if_neg h0, if_pos h]

theorem limitStage_ok (limit : Int) (L : List filesystemEntry) (h : limit ≤ 1000) :
    ∃ nc page, limitStage limit L = .ok (nc, page) := by
  have hlim : ¬((if limit ≤ 0 then (100 : Int) else limit) > 1000) := by
    split <;> omega
  simp only [limitStage, if_neg hlim]
  by_cases hl : L.length > (if limit ≤ 0 then (100 : Int) else limit).toNat
  · exact ⟨_, _, by rw [if_pos hl]⟩
  · exact ⟨_, _, by rw [if_neg hl]⟩

/-- C9: `getSnippets` treats a limit ≤ 0 as 100, fails with the
`limitExceedsMax` error exactly when the non-defaulted limit exceeds
1000, and returns a page otherwise. -/
theorem getSnippets_limit_boundary (entries : List filesystemEntry) (s : String)
    (limit : Int) (c sf so : String) (fid : Option String) :
    (limit ≤ 0 → getSnippets entries s limit c sf so fid = getSnippets entries s 100 c sf so fid)
    ∧ (limit > 1000 → getSnippets entries s limit c sf so fid = .error .limitExceedsMax)
    ∧ (limit ≤ 1000 → ∃ nc page, getSnippets entries s limit c sf so fid = .ok (nc, page)) := by
  refine ⟨fun h => ?_, fun h => ?_, fun h => ?_⟩
  · simp only [getSnippets]
    exact limitStage_default _ _ h
  · simp only [getSnippets]
    exact limitStage_exceeds _ _ h
  · simp only [getSnippets]
    exact limitStage_ok _ _ h

/-- Witness for `getSnippets_limit_boundary`: `limit = 1001` fails with
`limitExceedsMax`, `limit = 1000` succeeds. -/
theorem getSnippets_limit_boundary_witness :
    getSnippets [] "" 1001 "" "" "" none = .error .limitExceedsMax ∧
      ∃ nc page, getSnippets [] "" 1000 "" "" "" none = .ok (nc, page) :=
  ⟨(getSnippets_limit_boundary [] "" 1001 "" "" "" none).2.1 (by norm_num),
   (getSnippets_limit_boundary [] "" 1000 "" "" "" none).2.2 (by norm_num)⟩

/-- C8 (amended): `getFolders` returns exactly the top-level folder
entries when the parent filter is `nil`, and the empty list for every
non-`nil` filter (the loop condition requires `folderID == nil`). -/
theorem getFolders_spec (entries : List filesystemEntry) (fid : Option String) :
    getFolders entries fid =
      match fid with
      | none => (entries.filter (fun e => e.typ == "folder" && e.FolderID.isNone)).map
          (fun e => { ID := e.ID, Name := e.Name, OwnerID := 1, ParentID := none,
                      ProjectID := 1 })
      | some _ => [] := by
  cases fid with
  | none => simp [getFolders]
  | some x => simp [getFolders]

/-- C8 (counterexample to the claim as stated): with one scanned folder,
a non-`nil` parent filter returns no folders at all, while the `nil`
filter returns the folder — filtering by parent is not a no-op. -/
theorem getFolders_claim_counterexample :
    getFolders folderDemoEntries (some "x") = [] ∧
      getFolders folderDemoEntries none =
        [{ ID := "fid1", Name := "F", OwnerID := 1, ParentID := none, ProjectID := 1 }] := by
  constructor
  · decide
  · decide

theorem insertStable_perm {α : Type} (less : α → α → Bool) (x : α) (l : List α) :
    (insertStable less x l).Perm (x :: l) := by
  induction l with
  | nil => exact List.Perm.refl _
  | cons y ys ih =>
    unfold insertStable
    by_cases h : less y x
    · rw [if_pos h]
      exact (ih.cons y).trans (List.Perm.swap x y ys)
    · rw [if_neg h]

theorem stableSort_perm {α : Type} (less : α → α → Bool) (l : List α) :
    (stableSort less l).Perm l := by
  induction l with
  | nil => exact List.Perm.refl _
  | cons x xs ih =>
    exact (insertStable_perm less x _).trans (ih.cons x)

theorem sortStage_perm (sf so : String) (l : List filesystemEntry) :
    (sortStage sf so l).Perm l := by
  unfold sortStage
  split
  · exact (List.reverse_perm _).trans (stableSort_perm _ l)
  · exact stableSort_perm _ l

theorem cursorStage_empty (l : List filesystemEntry) : cursorStage "" l = l := by
  simp [cursorStage, cursorStart]

theorem limitStage_fits (limit : Int) (L : List filesystemEntry) (h1 : 0 < limit)
    (h2 : limit ≤ 1000) (h3 : L.length ≤ limit.toNat) : limitStage limit L = .ok ("", L) := by
  have h0 : ¬ limit ≤ 0 := by omega
  have hmax : ¬ (limit > 1000) := by omega
  simp only [limitStage, if_neg h0, if_neg hmax]
  have hl : ¬ L.length > limit.toNat := by omega
  rw [if_neg hl]

theorem filter_file_filter (entries : List filesystemEntry) (q : filesystemEntry → Bool) :
    (entries.filter (fun e => e.typ == "file")).filter q
      = entries.filter (fun e => e.typ == "file" && q e) := by
  rw [List.filter_filter]
  exact List.filter_congr (fun a _ => Bool.and_comm _ _)

theorem matchesFolder_beq (a b : Option String) : matchesFolder a b = (a == b) := by
  cases a <;> cases b <;> simp [matchesFolder]

theorem getSnippets_nocursor_fits (entries : List filesystemEntry) (s : String)
    (limit : Int) (sf so : String) (fid : Option String) (h1 : 0 < limit) (h2 : limit ≤ 1000)
    (h3 : (searchFilter (entries.filter (fun e => e.typ == "file")) s fid).length ≤ limit.toNat) :
    getSnippets entries s limit "" sf so fid
        = .ok ("", sortStage sf so (searchFilter (entries.filter (fun e => e.typ == "file")) s fid))
      ∧ (sortStage sf so (searchFilter (entries.filter (fun e => e.typ == "file")) s fid)).Perm
          (searchFilter (entries.filter (fun e => e.typ == "file")) s fid) := by
  have hperm := sortStage_perm sf so (searchFilter (entries.filter (fun e => e.typ == "file")) s fid)
  constructor
  · simp only [getSnippets]
    rw [cursorStage_empty]
    exact limitStage_fits _ _ h1 h2 (hperm.length_eq ▸ h3)
  · exact hperm

/-- C5: with no cursor and a page large enough to hold everything, a
non-empty search term makes the result exactly (as a multiset) the file
entries whose name contains the term case-insensitively — across all
folders, the folder filter being ignored — while an empty search term
makes it exactly the file entries whose folder membership equals the
filter, `none` matching only un-foldered snippets. -/
theorem getSnippets_filter_modes (entries : List filesystemEntry) (s : String) (limit : Int)
    (sf so : String) (fid : Option String) (h1 : 0 < limit) (h2 : limit ≤ 1000) :
    (s ≠ "" →
      (entries.filter (fun e => e.typ == "file" && goContains (strToLower e.Name) (strToLower s))).length
          ≤ limit.toNat →
      ∃ page, getSnippets entries s limit "" sf so fid = .ok ("", page) ∧
        page.Perm (entries.filter (fun e => e.typ == "file" && goContains (strToLower e.Name) (strToLower s))))
    ∧ (s = "" →
      (entries.filter (fun e => e.typ == "file" && e.FolderID == fid)).length ≤ limit.toNat →
      ∃ page, getSnippets entries s limit "" sf so fid = .ok ("", page) ∧
        page.Perm (entries.filter (fun e => e.typ == "file" && e.FolderID == fid))) := by
  constructor
  · intro hs h3
    have hsf : searchFilter (entries.filter (fun e => e.typ == "file")) s fid
        = entries.filter (fun e => e.typ == "file" && goContains (strToLower e.Name) (strToLower s)) := by
      rw [searchFilter, if_pos hs]
      exact filter_file_filter entries _
    obtain ⟨heq, hperm⟩ := getSnippets_nocursor_fits entries s limit sf so fid h1 h2 (hsf ▸ h3)
    exact ⟨_, heq, hsf ▸ hperm⟩
  · intro hs h3
    have hsf : searchFilter (entries.filter (fun e => e.typ == "file")) s fid
        = entries.filter (fun e => e.typ == "file" && e.FolderID == fid) := by
      rw [searchFilter, if_neg (by simp [hs])]
      rw [show (fun f : filesystemEntry => matchesFolder f.FolderID fid)
            = fun f : filesystemEntry => f.FolderID == fid from funext fun f => matchesFolder_beq _ _]
      exact filter_file_filter entries _
    obtain ⟨heq, hperm⟩ := getSnippets_nocursor_fits entries s limit sf so fid h1 h2 (hsf ▸ h3)
    exact ⟨_, heq, hsf ▸ hperm⟩

/-- Witness for `getSnippets_filter_modes` on the five-snippet corpus:
searching `"A"` returns exactly the snippet named `a`, and an empty
search with `none` folder filter returns all five. -/
theorem getSnippets_filter_modes_witness :
    (∃ page, getSnippets fiveSnippets "A" 1000 "" "name" "asc" none = .ok ("", page) ∧
      page.Perm (fiveSnippets.filter
        (fun e => e.typ == "file" && goContains (strToLower e.Name) (strToLower "A"))))
    ∧ (∃ page, getSnippets fiveSnippets "" 1000 "" "name" "asc" none = .ok ("", page) ∧
      page.Perm (fiveSnippets.filter (fun e => e.typ == "file" && e.FolderID == none))) :=
  ⟨(getSnippets_filter_modes fiveSnippets "A" 1000 "name" "asc" none (by norm_num)
      (by norm_num)).1 (by decide) (by decide),
   (getSnippets_filter_modes fiveSnippets "" 1000 "name" "asc" none (by norm_num)
      (by norm_num)).2 rfl (by decide)⟩

/-- C4: cursor pagination — (a) a non-empty cursor matching the entry at
index `i` of the sorted+filtered list starts the page immediately after
it; (b) a cursor matching no entry starts from the beginning (not an
error); (c) when more items remain after taking the limit, the returned
nextCursor is the id of the last returned item; (d) on five snippets
sorted by name ascending, `list(limit=2)` then
`list(limit=2, cursor=<id of 2nd item>)` yield items 3 and 4, with no
duplicates and no gaps relative to `list(limit=1000)`. -/
theorem getSnippets_pagination :
    (∀ (entries : List filesystemEntry) (s : String) (limit : Int) (cursor sf so : String)
        (fid : Option String) (i : Nat),
      cursor ≠ "" →
      (sortedFiltered entries s sf so fid).findIdx? (fun e => e.ID == cursor) = some i →
      getSnippets entries s limit cursor sf so fid
        = limitStage limit ((sortedFiltered entries s sf so fid).drop (i + 1)))
    ∧ (∀ (entries : List filesystemEntry) (s : String) (limit : Int) (cursor sf so : String)
        (fid : Option String),
      (sortedFiltered entries s sf so fid).all (fun e => !(e.ID == cursor)) = true →
      getSnippets entries s limit cursor sf so fid
        = limitStage limit (sortedFiltered entries s sf so fid))
    ∧ (∀ (entries : List filesystemEntry) (s : String) (limit : Int) (cursor sf so : String)
        (fid : Option String),
      (if limit ≤ 0 then (100 : Int) else limit) ≤ 1000 →
      (cursorStage cursor (sortedFiltered entries s sf so fid)).length
          > (if limit ≤ 0 then (100 : Int) else limit).toNat →
      getSnippets entries s limit cursor sf so fid
        = .ok ((((cursorStage cursor (sortedFiltered entries s sf so fid)).take
                  (if limit ≤ 0 then (100 : Int) else limit).toNat).getLast?.map
                    (fun e => e.ID)).getD "",
               (cursorStage cursor (sortedFiltered entries s sf so fid)).take
                  (if limit ≤ 0 then (100 : Int) else limit).toNat))
    ∧ ((pageOf (getSnippets fiveSnippets "" 1000 "" "name" "asc" none)).map (fun e => e.ID)
          = ["1", "2", "3", "4", "5"]
        ∧ (pageOf (getSnippets fiveSnippets "" 2 "" "name" "asc" none)).map (fun e => e.ID)
          = ["1", "2"]
        ∧ (pageOf (getSnippets fiveSnippets "" 2 "2" "name" "asc" none)).map (fun e => e.ID)
          = ["3", "4"]
        ∧ pageOf (getSnippets fiveSnippets "" 2 "" "name" "asc" none)
            ++ pageOf (getSnippets fiveSnippets "" 2 "2" "name" "asc" none)
          = (pageOf (getSnippets fiveSnippets "" 1000 "" "name" "asc" none)).take 4) := by
  refine ⟨?_, ?_, ?_, ?_⟩
  · intro entries s limit cursor sf so fid i hc hfind
    have hbeq : ¬ ((cursor == "") = true) := by simp [hc]
    unfold sortedFiltered at hfind ⊢
    simp only [getSnippets, cursorStage, cursorStart]
    rw [if_neg hbeq]
    rw [hfind]
  · intro entries s limit cursor sf so fid hall
    unfold sortedFiltered at hall ⊢
    simp only [getSnippets, cursorStage, cursorStart]
    by_cases hc : (cursor == "") = true
    · rw [if_pos hc, List.drop_zero]
    · rw [if_neg hc]
      have hnone : (sortStage sf so (searchFilter (entries.filter (fun e => e.typ == "file")) s fid)).findIdx?
          (fun e => e.ID == cursor) = none := by
        rw [List.findIdx?_eq_none_iff]
        intro x hx
        have := List.all_eq_true.mp hall x hx
        simpa using this
      rw [hnone, List.drop_zero]
  · intro entries s limit cursor sf so fid hle hlen
    unfold sortedFiltered at hlen ⊢
    simp only [getSnippets]
    have h0 : ¬ ((if limit ≤ 0 then (100 : Int) else limit) > 1000) := by omega
    simp only [limitStage, if_neg h0]
    rw [if_pos hlen]
    have hn1 : 1 ≤ (if limit ≤ 0 then (100 : Int) else limit).toNat := by
      split <;> omega
    have hlast : ((cursorStage cursor (sortStage sf so
          (searchFilter (entries.filter (fun e => e.typ == "file")) s fid))).take
            (if limit ≤ 0 then (100 : Int) else limit).toNat).getLast?
        = (cursorStage cursor (sortStage sf so
            (searchFilter (entries.filter (fun e => e.typ == "file")) s fid)))[
              (if limit ≤ 0 then (100 : Int) else limit).toNat - 1]? := by
      rw [List.getLast?_eq_getElem?, List.length_take]
      have hmin : min (if limit ≤ 0 then (100 : Int) else limit).toNat
          (cursorStage cursor (sortStage sf so
            (searchFilter (entries.filter (fun e => e.typ == "file")) s fid))).length
          = (if limit ≤ 0 then (100 : Int) else limit).toNat := by omega
      rw [hmin, List.getElem?_take, if_pos (by omega)]
    rw [hlast]
  · refine ⟨by decide, by decide, by decide, by decide⟩

/-- Witness for `getSnippets_pagination` on the five-snippet corpus:
parts (a), (b), (c) applied at cursor `"2"`, unknown cursor `"zz"`, and
an over-full first page respectively. -/
theorem getSnippets_pagination_witness :
    getSnippets fiveSnippets "" 2 "2" "name" "asc" none
      = limitStage 2 ((sortedFiltered fiveSnippets "" "name" "asc" none).drop 2)
    ∧ getSnippets fiveSnippets "" 2 "zz" "name" "asc" none
      = limitStage 2 (sortedFiltered fiveSnippets "" "name" "asc" none)
    ∧ getSnippets fiveSnippets "" 2 "" "name" "asc" none
      = .ok ((((cursorStage "" (sortedFiltered fiveSnippets "" "name" "asc" none)).take
                (if (2 : Int) ≤ 0 then (100 : Int) else 2).toNat).getLast?.map
                  (fun e => e.ID)).getD "",
             (cursorStage "" (sortedFiltered fiveSnippets "" "name" "asc" none)).take
                (if (2 : Int) ≤ 0 then (100 : Int) else 2).toNat) :=
  ⟨getSnippets_pagination.1 fiveSnippets "" 2 "2" "name" "asc" none 1 (by decide) (by decide),
   getSnippets_pagination.2.1 fiveSnippets "" 2 "zz" "name" "asc" none (by decide),
   getSnippets_pagination.2.2.1 fiveSnippets "" 2 "" "name" "asc" none (by decide) (by decide)⟩

theorem listStartsWith_iff (l p : List Char) : listStartsWith l p = true ↔ p <+: l := by
  induction p generalizing l with
  | nil =>
    cases l <;> simp [listStartsWith]
  | cons b bs ih =>
    cases l with
    | nil => simp [listStartsWith]
    | cons a as =>
      rw [show listStartsWith (a :: as) (b :: bs) = (a == b && listStartsWith as bs) from rfl]
      rw [Bool.and_eq_true, beq_iff_eq, ih, List.cons_prefix_cons]
      exact ⟨fun ⟨h1, h2⟩ => ⟨h1.symm, h2⟩, fun ⟨h1, h2⟩ => ⟨h1.symm, h2⟩⟩

theorem strEndsWith_iff (s suf : String) : strEndsWith s suf = true ↔ suf.data <:+ s.data := by
  unfold strEndsWith
  rw [listStartsWith_iff]
  exact List.reverse_prefix

theorem trimSuffix_append (s suf : String) (h : strEndsWith s suf = true) :
    trimSuffix s suf ++ suf = s := by
  unfold trimSuffix
  rw [if_pos h]
  obtain ⟨t, ht⟩ := (strEndsWith_iff s suf).mp h
  have htake : s.data.take (s.data.length - suf.data.length) = t := by
    rw [← ht]
    have hlen : (t ++ suf.data).length - suf.data.length = t.length := by simp
    rw [hlen]
    exact List.take_left t suf.data
  rw [htake]
  have hdata : ((⟨t⟩ : String) ++ suf).data = s.data := by
    rw [String.data_append]
    exact ht
  exact String.ext hdata

/-- C3 (amended): the Tree Scanner assigns each top-level directory the id
`identify([dirName])`, each root-level `.sql` file the id
`identify([fileName])`, and each `.sql` file inside a top-level folder the
id `identify([folderUUID, fileName])` where `folderUUID = identify([folderName])`
— the containing folder's *generated id*, not its name, is the first hash
part. -/
theorem scanEntries_identity (st : fsState) :
    scanEntries st = st.items.flatMap (fun it =>
      match it with
      | .file f =>
        if isSqlName f.fname then
          [{ ID := deterministicUUID "" [f.fname], Name := trimSuffix f.fname ".sql",
             typ := "file", FolderID := none, Content := f.content, CreatedAt := f.mtime }]
        else []
      | .dir d =>
        { ID := deterministicUUID "" [d.dname], Name := d.dname, typ := "folder",
          FolderID := none, Content := "", CreatedAt := d.dmtime } ::
          d.dfiles.filterMap (fun f =>
            if isSqlName f.fname then
              some { ID := deterministicUUID "" [deterministicUUID "" [d.dname], f.fname],
                     Name := trimSuffix f.fname ".sql", typ := "file",
                     FolderID := some (deterministicUUID "" [d.dname]),
                     Content := f.content, CreatedAt := f.mtime }
            else none)) := by
  unfold scanEntries
  congr 1
  funext it
  cases it with
  | file f =>
    simp only [scanItem, rootFileEntry]
    by_cases h : isSqlName f.fname = true
    · have hends : strEndsWith f.fname ".sql" = true := by
        unfold isSqlName at h
        simp only [Bool.and_eq_true] at h
        exact h.2
      have htr := trimSuffix_append f.fname ".sql" hends
      rw [if_pos h, if_pos h, htr]
      rfl
    · rw [if_neg h, if_neg h]
      rfl
  | dir d =>
    simp only [scanItem]
    congr 1
    apply List.filterMap_congr
    intro f _
    simp only [dirFileEntry]
    by_cases h : isSqlName f.fname = true
    · have hends : strEndsWith f.fname ".sql" = true := by
        unfold isSqlName at h
        simp only [Bool.and_eq_true] at h
        exact h.2
      have htr := trimSuffix_append f.fname ".sql" hends
      rw [if_pos h, if_pos h, htr]
    · rw [if_neg h, if_neg h]

/-- C3 (counterexample to the claim as stated): for the tree
`F/a.sql`, the snippet id is `identify([identify(["F"]), "a.sql"])`, which
differs from the claimed `identify(["F", "a.sql"])`. -/
theorem scanEntries_claim_counterexample :
    deterministicUUID "" [deterministicUUID "" ["F"], "a.sql"]
        ≠ deterministicUUID "" ["F", "a.sql"]
      ∧ (scanEntries folderDemoState).map (fun e => e.ID)
        = [deterministicUUID "" ["F"],
           deterministicUUID "" [deterministicUUID "" ["F"], "a.sql"]] := by
  exact ⟨by decide, by decide⟩

/-- Whenever the id resolves to a scanned file entry, `deleteSnippet`
succeeds — regardless of whether the physical remove finds the file
(`os.ErrNotExist` is tolerated). -/
theorem deleteSnippet_success_of_found (st : fsState) (id : String)
    (h : (scanEntries st).any (fun e => e.ID == id && e.typ == "file") = true) :
    (deleteSnippet st id).2 = none := by
  simp only [deleteSnippet]
  cases hf : (scanEntries st).find? (fun e => e.ID == id && e.typ == "file") with
  | none =>
    exfalso
    rw [List.find?_eq_none] at hf
    obtain ⟨x, hx, hpx⟩ := List.any_eq_true.mp h
    exact hf x hx hpx
  | some target =>
    rfl

/-- C6 (amended): deleting a resolvable snippet id succeeds (the removal
itself never fails, even for an already-missing file), but a second
delete of the same id in succession fails with `snippetNotFound`, because
the id no longer resolves against the fresh scan — shown on the
one-snippet state. -/
theorem deleteSnippet_idempotence_amended :
    (∀ (st : fsState) (id : String),
      (scanEntries st).any (fun e => e.ID == id && e.typ == "file") = true →
      (deleteSnippet st id).2 = none)
    ∧ (deleteSnippet oneSnippetState oneSnippetID).2 = none
    ∧ (deleteSnippet (deleteSnippet oneSnippetState oneSnippetID).1 oneSnippetID).2
        = some .snippetNotFound := by
  exact ⟨deleteSnippet_success_of_found, by decide, by decide⟩

/-- Witness for `deleteSnippet_idempotence_amended` on the one-snippet
state. -/
theorem deleteSnippet_idempotence_amended_witness :
    (deleteSnippet oneSnippetState oneSnippetID).2 = none :=
  deleteSnippet_idempotence_amended.1 oneSnippetState oneSnippetID (by decide)

/-- C6 (counterexample to the claim as stated): deleting the only snippet
twice does not succeed both times — the second call returns an error. -/
theorem delete_twice_claim_counterexample :
    (deleteSnippet oneSnippetState oneSnippetID).2 = none
      ∧ (deleteSnippet (deleteSnippet oneSnippetState oneSnippetID).1 oneSnippetID).2 ≠ none := by
  exact ⟨by decide, by decide⟩

/-- C7 (amended): `sanitizeName` returns the empty string for any input
that is not its own base-name component or contains an embedded null byte
— in particular for `"../../etc/passwd"` and `"a\x00b"` — and
`createFolder` rejects such names with `folderNameRequired` before
touching the tree; `saveSnippet` (create) however does *not* reject them:
it proceeds and writes the file `.sql` with an empty base name. -/
theorem sanitizeName_rejection_amended :
    (∀ name : String,
      filepathBase name ≠ name ∨ name.data.contains (Char.ofNat 0) = true →
      sanitizeName name = "")
    ∧ sanitizeName "../../etc/passwd" = ""
    ∧ sanitizeName "a\x00b" = ""
    ∧ (∀ (st : fsState) (now : Nat) (name : String),
        sanitizeName name = "" →
        createFolder st now name = (st, .error .folderNameRequired))
    ∧ (∀ (now : Nat) (ns : snippetIn),
        ns.FolderID = none → sanitizeName ns.Name = "" →
        saveSnippet ⟨[]⟩ now ns = (⟨[.file ⟨".sql", ns.SQL, now⟩]⟩, .ok ())) := by
  refine ⟨?_, by decide, by decide, ?_, ?_⟩
  · intro name h
    unfold sanitizeName
    rcases h with h | h
    · have hb : (filepathBase name == name) = false := by
        simp [h]
      rw [if_pos (by rw [hb]; simp)]
    · rw [if_pos (by rw [h]; simp)]
  · intro st now name h
    simp only [createFolder, h]
    rfl
  · intro now ns hfid h
    simp only [saveSnippet, hfid, h]
    rfl

/-- Witness for `sanitizeName_rejection_amended` at concrete traversal
names. -/
theorem sanitizeName_rejection_amended_witness :
    sanitizeName "sub/dir" = ""
      ∧ createFolder ⟨[]⟩ 0 "../x" = (⟨[]⟩, .error .folderNameRequired)
      ∧ saveSnippet ⟨[]⟩ 5 ⟨"i", "../e", none, "q"⟩ = (⟨[.file ⟨".sql", "q", 5⟩]⟩, .ok ()) :=
  ⟨sanitizeName_rejection_amended.1 "sub/dir" (Or.inl (by decide)),
   sanitizeName_rejection_amended.2.2.2.1 ⟨[]⟩ 0 "../x" (by decide),
   sanitizeName_rejection_amended.2.2.2.2 5 ⟨"i", "../e", none, "q"⟩ rfl (by decide)⟩

/-- C7 (counterexample to the claim as stated): with a traversal name
whose sanitized form is empty, `saveSnippet` does not reject before
touching the filesystem — it succeeds and mutates the (initially empty)
root by writing the file `.sql`. -/
theorem create_reject_claim_counterexample :
    sanitizeName "../../etc/passwd" = ""
      ∧ (saveSnippet ⟨[]⟩ 0 ⟨"id0", "../../etc/passwd", none, "select 1"⟩).2 = .ok ()
      ∧ (saveSnippet ⟨[]⟩ 0 ⟨"id0", "../../etc/passwd", none, "select 1"⟩).1 ≠ ⟨[]⟩ := by
  exact ⟨by decide, by decide, by decide⟩

/-- The create path can fail only with `snippetAlreadyExists` or
`folderNotFound`, never with the update-specific errors. -/
theorem saveSnippet_error_cases (st : fsState) (now : Nat) (ns : snippetIn) :
    (saveSnippet st now ns).2 ≠ .error .snippetNotFound
      ∧ (saveSnippet st now ns).2 ≠ .error .snippetExistsInTargetFolder := by
  constructor <;>
  · simp only [saveSnippet]
    split
    · simp
    · split
      · split
        · simp
        · simp
      · simp

/-- C10: whenever `updateSnippet` fails with `snippetNotFound` or
`snippetExistsInTargetFolder`, the filesystem state is unchanged — both
checks run before the delete-then-create mutation begins. -/
theorem updateSnippet_cases (st : fsState) (now : Nat) (id : String)
    (un : Option String) (uf : Option (Option String)) (us : Option String) :
    (updateSnippet st now id un uf us).1 = st
      ∨ ((updateSnippet st now id un uf us).2 ≠ .error .snippetNotFound
          ∧ (updateSnippet st now id un uf us).2 ≠ .error .snippetExistsInTargetFolder) := by
  simp only [updateSnippet]
  split
  · left; rfl
  · rename_i found hf
    split
    · left; rfl
    · rename_i hcond
      have hany : (scanEntries st).any (fun e => e.ID == found.ID && e.typ == "file") = true := by
        apply List.any_eq_true.mpr
        refine ⟨found, List.mem_of_find?_eq_some hf, ?_⟩
        have hp := List.find?_some hf
        simp only [Bool.and_eq_true] at hp ⊢
        exact ⟨by simp, hp.2⟩
      have hdel : deleteSnippet st found.ID = ((deleteSnippet st found.ID).1, none) := by
        have h2 := deleteSnippet_success_of_found st found.ID hany
        rw [← h2]
      rw [hdel]
      right
      exact saveSnippet_error_cases _ now _

/-- C10: whenever `updateSnippet` fails with `snippetNotFound` or
`snippetExistsInTargetFolder`, the filesystem state is unchanged — both
checks run before the delete-then-create mutation begins. -/
theorem updateSnippet_error_preserves_state (st : fsState) (now : Nat) (id : String)
    (un : Option String) (uf : Option (Option String)) (us : Option String)
    (h : (updateSnippet st now id un uf us).2 = .error .snippetNotFound
        ∨ (updateSnippet st now id un uf us).2 = .error .snippetExistsInTargetFolder) :
    (updateSnippet st now id un uf us).1 = st := by
  rcases updateSnippet_cases st now id un uf us with hc | ⟨hn, hcf⟩
  · exact hc
  · rcases h with h | h
    · exact absurd h hn
    · exact absurd h hcf

/-- Witness for `updateSnippet_error_preserves_state`: updating an
unknown id on the empty root fails with `snippetNotFound` and leaves the
state unchanged. -/
theorem updateSnippet_error_preserves_state_witness :
    (updateSnippet ⟨[]⟩ 0 "zz" none none none).1 = ⟨[]⟩ :=
  updateSnippet_error_preserves_state ⟨[]⟩ 0 "zz" none none none (Or.inl (by decide))

end Snippets
